import Mathlib

/-!
Shallow embedding of `use_blended_model.py` (repository t27/stylegan2-blending).

The script is orchestration glue around external collaborators
(`legacy.load_network_pkl`, `stylegan_blending.get_blended_model`,
`projector.project`, PIL, numpy, torch, imageio).  We embed the script's own
code faithfully and keep each external collaborator as an explicit function
parameter, so every theorem is quantified over the collaborator's behaviour.

Modelling conventions:
* an 8-bit RGB raster (a PIL image after `convert("RGB")`, or a numpy
  `(H, W, 3)` `uint8` array) is an `Image`: a width, a height and a pixel map;
* float tensors are modelled with `ℚ` (exact rationals; the script only adds,
  scales, clamps and truncates, none of which needs floating-point rounding to
  state the spec's claims);
* the latent type is an abstract type parameter `W`; a projector trajectory is
  a `List W` and Python's `w_plus[-1]` is `List.getLast?`;
* filesystem activity of `main` is reified as an ordered trace of `FsEvent`s,
  interpreted against an abstract filesystem state `Fs`.
-/

set_option autoImplicit false

namespace UseBlendedModel

/-- One 8-bit RGB pixel (three channel values). -/
structure Pixel where
  r : Nat
  g : Nat
  b : Nat
  deriving DecidableEq, Repr

/-- Channel lookup matching the numpy channel order of an RGB array:
index 0 is red, 1 is green, 2 is blue. -/
def Pixel.channel (p : Pixel) : Nat → Nat
  | 0 => p.r
  | 1 => p.g
  | _ => p.b

/-- A decoded raster image: `pixel x y` is the pixel in column `x`, row `y`. -/
@[ext]
structure Image where
  width : Nat
  height : Nat
  pixel : Nat → Nat → Pixel

/-- The PIL resampling filters relevant to the script (`PIL.Image.LANCZOS` is
the only one the source selects). -/
inductive Filter where
  | nearest
  | bilinear
  | bicubic
  | lanczos
  deriving DecidableEq, Repr

/-- PIL's `img.crop (l, u, r, b)`: the region with left/upper corner `(l, u)`
and right/lower corner `(r, b)`; the result has width `r - l` and height
`b - u`, and its pixel `(x, y)` is the source pixel `(x + l, y + u)`. -/
def Image.crop (img : Image) (l u r b : Nat) : Image where
  width := r - l
  height := b - u
  pixel := fun x y => img.pixel (x + l) (y + u)

/-- PIL's `img.resize ((w, h), filter)`.  PIL returns the image unchanged
(a copy) when the requested size equals the current size and no box is given;
otherwise it resamples with the chosen filter.  The resampling kernel itself
is external to the repository, so it is a parameter `resample`. -/
def Image.resize (img : Image) (resample : Filter → Nat → Nat → Image → Image)
    (w h : Nat) (f : Filter) : Image :=
  if img.width = w ∧ img.height = h then img else resample f w h img

/-- Embedding of `get_target_transformed_img` (`pil=True` path; the
`pil=False` path first decodes the file with `PIL.Image.open(...).convert`,
which `main`'s embedding performs through its `decode` collaborator):
center-crop to the largest square, then resize to `res`×`res` with the
LANCZOS filter; `np.array(..., dtype=np.uint8)` is the identity on our
already-abstract raster. -/
def get_target_transformed_img (resample : Filter → Nat → Nat → Image → Image)
    (input_image : Image) (res : Nat) : Image :=
  let target_pil := input_image
  let w := target_pil.width
  let h := target_pil.height
  let s := min w h
  let target_pil := target_pil.crop ((w - s) / 2) ((h - s) / 2) ((w + s) / 2) ((h + s) / 2)
  let target_pil := target_pil.resize resample res res Filter.lanczos
  target_pil

/-- The `noise_mode` values accepted by the CLI (`const` / `random` / `none`);
the render sites in the source always pass the string `"const"`. -/
inductive NoiseMode where
  | const
  | random
  | none
  deriving DecidableEq, Repr

/-- A loaded generator network.  `synthesis w mode c y x` is the float value of
channel `c` at row `y`, column `x` of `G.synthesis(w.unsqueeze(0), mode)`
(a `(1, C, H, W)` tensor, read after `permute(0, 2, 3, 1)` and `[0]` as
`(H, W, C)`).  The network is external, so `synthesis` is abstract data;
`img_resolution` is the declared square output resolution. -/
structure Network (W : Type) where
  img_resolution : Nat
  synthesis : W → NoiseMode → Nat → Nat → Nat → ℚ

/-- The pixel-value map applied by both render sites: `(x + 1) * (255 / 2)`
followed by `.clamp(0, 255)` (torch clamp is `min (max x lo) hi`). -/
def renderValue (x : ℚ) : ℚ :=
  min (max ((x + 1) * (255 / 2)) 0) 255

/-- Effect of `.to(torch.uint8)` on a clamped non-negative float value: truncation
toward zero, i.e. the floor, as a natural number. -/
def quantizeChannel (x : ℚ) : Nat :=
  (Int.floor (renderValue x)).toNat

/-- One forward pass plus the uint8 conversion, at an explicit noise mode:
this is the body shared verbatim by `generate_image` and the loop of
`make_video` (`synthesis`, `(x+1)*(255/2)`, `permute`, `clamp`, `to(uint8)`,
`[0]`, `.cpu().numpy()`). -/
def renderWith {W : Type} (G : Network W) (w : W) (mode : NoiseMode) : Image where
  width := G.img_resolution
  height := G.img_resolution
  pixel := fun x y =>
    { r := quantizeChannel (G.synthesis w mode 0 y x)
      g := quantizeChannel (G.synthesis w mode 1 y x)
      b := quantizeChannel (G.synthesis w mode 2 y x) }

/-- The render call as the source makes it: `noise_mode="const"` hard-coded. -/
def render {W : Type} (G : Network W) (w : W) : Image :=
  renderWith G w NoiseMode.const

/-- Embedding of `generate_image`.  Python's `w_plus[-1]` on an empty trajectory
raises `IndexError` in Python, so the embedding returns an `Option`:
`some` of the image rendered at the last trajectory element, else `none`.
`PIL.Image.fromarray(..., "RGB")` round-trips the array unchanged. -/
def generate_image {W : Type} (G : Network W) (w_plus : List W) : Option Image :=
  (w_plus.getLast?).map fun w => render G w

/-- Horizontal concatenation of two rasters, the effect of
`np.concatenate([a, b], axis=1)` on `(H, W, 3)` arrays (in every call the
source makes, the heights agree). -/
def hconcat (a b : Image) : Image where
  width := a.width + b.width
  height := a.height
  pixel := fun x y => if x < a.width then a.pixel x y else b.pixel (x - a.width) y

/-- One video frame: `np.concatenate([target_uint8, unblended_image,
synth_image], axis=1)` with both panels rendered at `noise_mode="const"`. -/
def videoFrame {W : Type} (G1 blended_model : Network W) (target_uint8 : Image)
    (w : W) : Image :=
  hconcat (hconcat target_uint8 (render G1 w)) (render blended_model w)

/-- The state of the `imageio` writer returned by
`imageio.get_writer(outfile, mode="I", fps=10, codec="libx264",
bitrate="16M")`: the configured frame rate, the frames appended so far, and
whether `close()` has been called (which flushes the container). -/
structure VideoWriter where
  fps : Nat
  frames : List Image
  closed : Bool

/-- Embedding of `imageio.get_writer` at a given fps: no frames yet, not closed. -/
def get_writer (fps : Nat) : VideoWriter where
  fps := fps
  frames := []
  closed := false

/-- The error raised when `video.append_data` (or the rendering feeding it)
fails part-way through the trajectory. -/
inductive VideoErr where
  | encodeFailed
  deriving DecidableEq, Repr

/-- The `for projected_w in w_plus:` loop of `make_video` followed by
`video.close()`.  The external encoder is modelled by `encode_ok`: when it
rejects a frame, Python raises out of the loop, so the function returns with
the writer exactly as it was — in particular `close()` is not reached. -/
def appendFrames {W : Type} (encode_ok : Image → Bool)
    (G1 blended_model : Network W) (target_uint8 : Image) :
    List W → VideoWriter → VideoWriter × Option VideoErr
  | [], video => ({ video with closed := true }, Option.none)
  | w :: rest, video =>
    let frame := videoFrame G1 blended_model target_uint8 w
    if encode_ok frame then
      appendFrames encode_ok G1 blended_model target_uint8 rest
        { video with frames := video.frames ++ [frame] }
    else
      (video, Option.some VideoErr.encodeFailed)

/-- Embedding of `make_video`: open the writer at 10 fps, append one
concatenated frame per trajectory element in order, then close.  The second
component records whether an error escaped the loop. -/
def make_video {W : Type} (encode_ok : Image → Bool)
    (G1 blended_model : Network W) (w_plus : List W) (target_uint8 : Image) :
    VideoWriter × Option VideoErr :=
  appendFrames encode_ok G1 blended_model target_uint8 w_plus (get_writer 10)

/-- Embedding of `blend_model`.  Loading (`dnnlib.util.open_url` +
`legacy.load_network_pkl(...)["G_ema"].to(device).eval()`) and
`get_blended_model` are external collaborators, passed in as functions.
The body reassigns `blend_width = None`, sets `level = 0`, formats the
resolution tag as `f"b{resolution}"`, calls the blender and returns
`(blended_model, G1)`. -/
def blend_model {W : Type} (load : String → Network W)
    (get_blended_model : Network W → Network W → String → Nat → Option ℚ → Nat → Bool → Network W)
    (network_pkl1 network_pkl2 : String) (resolution : Nat) (network_size : Nat)
    (blend_width : Option ℚ) (verbose : Bool) : Network W × Network W :=
  let G1 := load network_pkl1
  let G2 := load network_pkl2
  let blend_width : Option ℚ := Option.none
  let level : Nat := 0
  let resolution : String := "b" ++ toString resolution
  (get_blended_model G1 G2 resolution level blend_width network_size verbose, G1)

/-- Embedding of `blend_model_simple`: identical to `blend_model` except the
two networks arrive already loaded. -/
def blend_model_simple {W : Type}
    (get_blended_model : Network W → Network W → String → Nat → Option ℚ → Nat → Bool → Network W)
    (network1 network2 : Network W) (resolution : Nat) (network_size : Nat)
    (blend_width : Option ℚ) (verbose : Bool) : Network W × Network W :=
  let blend_width : Option ℚ := Option.none
  let level : Nat := 0
  let resolution : String := "b" ++ toString resolution
  (get_blended_model network1 network2 resolution level blend_width network_size verbose, network1)

/-- Effect of `target_uint8.transpose([2, 0, 1])` followed by `torch.tensor(...)`:
the channel-first integer tensor view of a raster, `(c, y, x)` indexing. -/
def toCHW (img : Image) : Nat → Nat → Nat → Nat :=
  fun c y x => (img.pixel x y).channel c

/-- Embedding of `project_image`: preprocess the decoded input at the
network's resolution, build the channel-first target tensor, and hand it to
the external `project` collaborator with `num_steps=500`; the collaborator
returns the whole trajectory of latent vectors. -/
def project_image {W : Type} (decode : String → Image)
    (project : Network W → (Nat → Nat → Nat → Nat) → Nat → List W)
    (resample : Filter → Nat → Nat → Image → Image)
    (input_image : String) (G1 : Network W) : List W :=
  let target_uint8 := get_target_transformed_img resample (decode input_image) G1.img_resolution
  let target_torch := toCHW target_uint8
  project G1 target_torch 500

/-- Shape effect of `torch.Tensor.unsqueeze(0)`: a new leading
axis of extent 1. -/
def unsqueeze0 (shape : List Nat) : List Nat :=
  1 :: shape

/-- The archive written by `np.savez(f"{outdir}/projected_w.npz",
w=w_plus.unsqueeze(0).cpu().numpy())`: named arrays, identified by their
shapes — exactly one entry, named `"w"`, holding the unsqueezed trajectory. -/
def savezW (trajectory_shape : List Nat) : List (String × List Nat) :=
  [("w", unsqueeze0 trajectory_shape)]

/-- The options `click` collects for `main` (defaults as declared there).
`truncation_psi` is `--trunc`, `noise_mode` is `--noise-mode`. -/
structure MainOptions where
  network_pkl1 : String
  network_pkl2 : String
  network_size : Nat
  input_image : String
  blend_layer : Nat
  truncation_psi : ℚ
  noise_mode : NoiseMode
  outdir : String
  blend_width : Option ℚ
  verbose : Bool

/-- The external collaborators `main` composes, plus the shape of one latent
vector (`latent_shape`), needed only to describe the saved `.npz` array:
`w_plus` is a tensor of shape `(len(w_plus), *latent_shape)`.
`splitext_base` is `os.path.splitext(os.path.split(p)[-1])` of the Python
standard library. -/
structure Collaborators (W : Type) where
  load : String → Network W
  get_blended_model : Network W → Network W → String → Nat → Option ℚ → Nat → Bool → Network W
  decode : String → Image
  project : Network W → (Nat → Nat → Nat → Nat) → Nat → List W
  resample : Filter → Nat → Nat → Image → Image
  encode_ok : Image → Bool
  splitext_base : String → String × String
  latent_shape : List Nat

/-- One filesystem effect of `main`, in program order. -/
inductive FsEvent where
  | makedirs (path : String) (exist_ok : Bool)
  | writeNpz (path : String) (arrays : List (String × List Nat))
  | saveImage (path : String) (img : Image)
  | writeVideo (path : String) (video : VideoWriter)

/-- The events of `main` after the `.npz` save: the two still images
(`generate_image` on an empty trajectory raises before the corresponding
save, truncating the trace) and then the video. -/
def mainRenderEvents {W : Type} (c : Collaborators W) (o : MainOptions)
    (G1 blended_model : Network W) (w_plus : List W)
    (input_image_name ext : String) : List FsEvent :=
  match generate_image G1 w_plus with
  | Option.none => []
  | Option.some normal_img =>
    FsEvent.saveImage (o.outdir ++ "/" ++ input_image_name ++ "_synthesized" ++ ext) normal_img ::
    match generate_image blended_model w_plus with
    | Option.none => []
    | Option.some blended_img =>
      let target_uint8 :=
        get_target_transformed_img c.resample (c.decode o.input_image) G1.img_resolution
      [FsEvent.saveImage (o.outdir ++ "/" ++ input_image_name ++ "_blended" ++ ext) blended_img,
       FsEvent.writeVideo (o.outdir ++ "/proj_blended.mp4")
         (make_video c.encode_ok G1 blended_model w_plus target_uint8).1]

/-- Embedding of `main`, reified as its ordered filesystem-event trace:
`os.makedirs(outdir, exist_ok=True)` first, then the blend, the projection,
the `np.savez` of the unsqueezed trajectory, the two still-image saves and
the video. -/
def main {W : Type} (c : Collaborators W) (o : MainOptions) : List FsEvent :=
  let split := c.splitext_base o.input_image
  let models := blend_model c.load c.get_blended_model o.network_pkl1 o.network_pkl2
    o.blend_layer o.network_size o.blend_width o.verbose
  let blended_model := models.1
  let G1 := models.2
  let w_plus := project_image c.decode c.project c.resample o.input_image G1
  FsEvent.makedirs o.outdir true
  :: FsEvent.writeNpz (o.outdir ++ "/projected_w.npz") (savezW (w_plus.length :: c.latent_shape))
  :: mainRenderEvents c o G1 blended_model w_plus split.1 split.2

/-- An abstract filesystem state: the set of existing directories and the set
of existing files (writes overwrite silently, as the source's do). -/
structure Fs where
  dirs : Finset String
  files : Finset String
  deriving DecidableEq

/-- The directories `os.makedirs(p)` creates: every `/`-separated prefix of
`p`, innermost included. -/
def ancestorDirs (p : String) : List String :=
  ((p.splitOn "/").inits.filter fun l => l ≠ []).map fun l => String.intercalate "/" l

/-- The effect of a successful `os.makedirs(p, ...)`: `p` and all its missing
parents come into existence. -/
def mkdirP (p : String) (fs : Fs) : Fs :=
  { fs with dirs := fs.dirs ∪ (ancestorDirs p).toFinset }

/-- The error `FileExistsError` that `os.makedirs` raises without `exist_ok`. -/
inductive FsErr where
  | fileExists
  deriving DecidableEq, Repr

/-- Interpretation of one event against a filesystem state.  `os.makedirs`
with `exist_ok=True` never fails; without it, it raises `FileExistsError`
when the directory already exists.  The writes create or overwrite a file. -/
def applyEvent (fs : Fs) : FsEvent → Except FsErr Fs
  | FsEvent.makedirs p exist_ok =>
    if exist_ok then Except.ok (mkdirP p fs)
    else if p ∈ fs.dirs then Except.error FsErr.fileExists
    else Except.ok (mkdirP p fs)
  | FsEvent.writeNpz p _ => Except.ok { fs with files := insert p fs.files }
  | FsEvent.saveImage p _ => Except.ok { fs with files := insert p fs.files }
  | FsEvent.writeVideo p _ => Except.ok { fs with files := insert p fs.files }

/-- Running a trace of events in order, stopping at the first error. -/
def applyTrace (fs : Fs) : List FsEvent → Except FsErr Fs
  | [] => Except.ok fs
  | e :: es =>
    match applyEvent fs e with
    | Except.ok fs' => applyTrace fs' es
    | Except.error err => Except.error err

/-- Events that can never fail under `applyEvent`: everything except a
`makedirs` without `exist_ok`. -/
def FsEvent.safe : FsEvent → Prop
  | FsEvent.makedirs _ exist_ok => exist_ok = true
  | _ => True

/-- A concrete one-latent network over the unit latent type, for witnesses. -/
def unitNetwork : Network Unit where
  img_resolution := 1
  synthesis := fun _ _ _ _ _ => 0

/-- A concrete all-black 1×1 raster, for witnesses. -/
def onePxImage : Image where
  width := 1
  height := 1
  pixel := fun _ _ => { r := 0, g := 0, b := 0 }

/-- A concrete resampling kernel honouring the requested size, standing in for
PIL's LANCZOS implementation in witnesses. -/
def fillResample : Filter → Nat → Nat → Image → Image :=
  fun _ w h _ => { width := w, height := h, pixel := fun _ _ => { r := 0, g := 0, b := 0 } }

/-! ## Supporting lemmas -/

/-- The centered square crop box has side exactly `s` in both directions. -/
theorem crop_box_side (w s : Nat) (hs : s ≤ w) :
    (w + s) / 2 - (w - s) / 2 = s := by
  omega

/-- Cropping the full frame is the identity. -/
theorem crop_full (img : Image) : img.crop 0 0 img.width img.height = img := by
  ext x y
  · simp [Image.crop]
  · simp [Image.crop]
  · simp [Image.crop]

/-- Resizing to the current size is the identity (PIL short-circuit). -/
theorem resize_self (img : Image) (resample : Filter → Nat → Nat → Image → Image)
    (w h : Nat) (f : Filter) (hw : img.width = w) (hh : img.height = h) :
    img.resize resample w h f = img := by
  simp [Image.resize, hw, hh]

theorem renderValue_nonneg (x : ℚ) : 0 ≤ renderValue x :=
  le_min (le_max_right _ _) (by norm_num)

theorem renderValue_le (x : ℚ) : renderValue x ≤ 255 :=
  min_le_right _ _

theorem quantizeChannel_le (x : ℚ) : quantizeChannel x ≤ 255 := by
  have h : Int.floor (renderValue x) ≤ (255 : ℤ) := by
    have := Int.floor_le_floor (renderValue_le x)
    simpa using this
  exact Int.toNat_le.mpr h

theorem appendFrames_all_ok {W : Type} (encode_ok : Image → Bool)
    (G1 blended_model : Network W) (target_uint8 : Image)
    (henc : ∀ f, encode_ok f = true) :
    ∀ (ws : List W) (video : VideoWriter),
      appendFrames encode_ok G1 blended_model target_uint8 ws video
        = ({ fps := video.fps
             frames := video.frames ++ ws.map (videoFrame G1 blended_model target_uint8)
             closed := true }, Option.none) := by
  intro ws
  induction ws with
  | nil => intro video; simp [appendFrames]
  | cons w rest ih =>
    intro video
    simp [appendFrames, henc, ih]

theorem appendFrames_closed_iff {W : Type} (encode_ok : Image → Bool)
    (G1 blended_model : Network W) (target_uint8 : Image) :
    ∀ (ws : List W) (video : VideoWriter), video.closed = false →
      ((appendFrames encode_ok G1 blended_model target_uint8 ws video).1.closed = true
        ↔ (appendFrames encode_ok G1 blended_model target_uint8 ws video).2 = Option.none) := by
  intro ws
  induction ws with
  | nil => intro video hv; simp [appendFrames]
  | cons w rest ih =>
    intro video hv
    by_cases henc : encode_ok (videoFrame G1 blended_model target_uint8 w) = true
    · simpa [appendFrames, henc] using
        ih { video with frames := video.frames ++ [videoFrame G1 blended_model target_uint8 w] } hv
    · simp [appendFrames, henc, hv]

/-- Creating a directory that already exists (with its parents) changes
nothing. -/
theorem mkdirP_idem (p : String) (fs : Fs) : mkdirP p (mkdirP p fs) = mkdirP p fs := by
  simp [mkdirP, Finset.union_assoc]

theorem applyEvent_safe (fs : Fs) (e : FsEvent) (h : e.safe) :
    ∃ fs', applyEvent fs e = Except.ok fs' := by
  cases e with
  | makedirs p exist_ok =>
    cases exist_ok with
    | true => exact ⟨mkdirP p fs, by simp [applyEvent]⟩
    | false => simp [FsEvent.safe] at h
  | writeNpz p a => exact ⟨_, rfl⟩
  | saveImage p i => exact ⟨_, rfl⟩
  | writeVideo p v => exact ⟨_, rfl⟩

theorem applyTrace_safe (tr : List FsEvent) :
    (∀ e ∈ tr, e.safe) → ∀ fs : Fs, ∃ fs', applyTrace fs tr = Except.ok fs' := by
  induction tr with
  | nil => intro _ fs; exact ⟨fs, rfl⟩
  | cons e es ih =>
    intro h fs
    obtain ⟨fs1, h1⟩ := applyEvent_safe fs e (h e (List.mem_cons_self e es))
    obtain ⟨fs2, h2⟩ := ih (fun x hx => h x (List.mem_cons_of_mem e hx)) fs1
    exact ⟨fs2, by simp [applyTrace, h1, h2]⟩

/-- Every event `main` ever emits is safe: the single `makedirs` carries
`exist_ok=True` and all other events are writes. -/
theorem main_events_safe {W : Type} (c : Collaborators W) (o : MainOptions) :
    ∀ e ∈ main c o, e.safe := by
  intro e he
  simp only [main, List.mem_cons] at he
  rcases he with h | h | h
  · subst h; trivial
  · subst h; trivial
  · revert h
    simp only [mainRenderEvents]
    split
    · intro h; simp at h
    · split
      · intro h
        simp only [List.mem_cons, List.not_mem_nil, or_false] at h
        subst h; trivial
      · intro h
        simp only [List.mem_cons, List.not_mem_nil, or_false] at h
        rcases h with h | h | h <;> (subst h; trivial)

/-! ## Claim theorems -/

/-- C1: for every caller-supplied `blend_width` (including a non-`None`
value), `blend_model` passes `None` (hard switch) as the blend-width argument
to `get_blended_model`, so its result is independent of the caller's
`blend_width`; `blend_model_simple` behaves the same way. -/
theorem blend_model_forces_hard_switch {W : Type} (load : String → Network W)
    (gbm : Network W → Network W → String → Nat → Option ℚ → Nat → Bool → Network W)
    (network1 network2 : Network W) (network_pkl1 network_pkl2 : String)
    (resolution network_size : Nat) (bw bw' : Option ℚ) (verbose : Bool) :
    blend_model load gbm network_pkl1 network_pkl2 resolution network_size bw verbose
      = (gbm (load network_pkl1) (load network_pkl2) ("b" ++ toString resolution) 0
          Option.none network_size verbose, load network_pkl1)
    ∧ blend_model load gbm network_pkl1 network_pkl2 resolution network_size bw verbose
      = blend_model load gbm network_pkl1 network_pkl2 resolution network_size bw' verbose
    ∧ blend_model_simple gbm network1 network2 resolution network_size bw verbose
      = (gbm network1 network2 ("b" ++ toString resolution) 0 Option.none network_size verbose,
          network1) :=
  ⟨rfl, rfl, rfl⟩

/-- C3: the still-image render maps every network output value `x` to
`(x + 1) * 127.5` and clamps, so every pixel channel of the image
`generate_image` produces is at most 255 (it fits an unsigned 8-bit
integer), and the clamped rational value always lies in `[0, 255]`. -/
theorem generate_image_pixels_fit_uint8 {W : Type} (G : Network W)
    (w_plus : List W) (img : Image)
    (h : generate_image G w_plus = Option.some img) (x y : Nat) :
    (img.pixel x y).r ≤ 255 ∧ (img.pixel x y).g ≤ 255 ∧ (img.pixel x y).b ≤ 255
    ∧ ∀ v : ℚ, 0 ≤ renderValue v ∧ renderValue v ≤ 255 := by
  obtain ⟨w, hw, himg⟩ := Option.map_eq_some'.mp h
  subst himg
  refine ⟨?_, ?_, ?_, fun v => ⟨renderValue_nonneg v, renderValue_le v⟩⟩
  · exact quantizeChannel_le _
  · exact quantizeChannel_le _
  · exact quantizeChannel_le _

/-- Witness for C3 at a concrete network and trajectory. -/
theorem generate_image_pixels_fit_uint8_witness :
    ((render unitNetwork ()).pixel 0 0).r ≤ 255
    ∧ ((render unitNetwork ()).pixel 0 0).g ≤ 255
    ∧ ((render unitNetwork ()).pixel 0 0).b ≤ 255
    ∧ ∀ v : ℚ, 0 ≤ renderValue v ∧ renderValue v ≤ 255 :=
  generate_image_pixels_fit_uint8 unitNetwork [()] (render unitNetwork ()) rfl 0 0

/-- C9: when the projector returns a non-empty trajectory, the index `-1`
access of `generate_image` is in bounds (the last position is a valid index)
and the still image is rendered at exactly the last trajectory element. -/
theorem generate_image_uses_last_latent {W : Type} (G : Network W)
    (w_plus : List W) (h : w_plus ≠ []) :
    w_plus.length - 1 < w_plus.length
    ∧ generate_image G w_plus = Option.some (render G (w_plus.getLast h)) := by
  constructor
  · have hpos : 0 < w_plus.length := List.length_pos.mpr h
    omega
  · simp [generate_image, List.getLast?_eq_getLast _ h]

/-- Witness for C9 at a concrete one-element trajectory. -/
theorem generate_image_uses_last_latent_witness :
    (([()] : List Unit).length - 1 < ([()] : List Unit).length)
    ∧ generate_image unitNetwork [()]
        = Option.some (render unitNetwork (([()] : List Unit).getLast (List.cons_ne_nil () []))) :=
  generate_image_uses_last_latent unitNetwork [()] (List.cons_ne_nil () [])

/-- C2: for every decodable input image and target resolution `res`, and any
resampling kernel that honours the requested output size (PIL's contract),
`get_target_transformed_img` is exactly the centered square crop of side
`s = min (width, height)` with box `((w-s)/2, (h-s)/2, (w+s)/2, (h+s)/2)`,
followed by a LANCZOS resize to `res`×`res`; the crop has side `s` and the
result has exactly `res`×`res` pixels. -/
theorem get_target_transformed_img_center_crop_lanczos
    (resample : Filter → Nat → Nat → Image → Image)
    (hres : ∀ (f : Filter) (w h : Nat) (img : Image),
      (resample f w h img).width = w ∧ (resample f w h img).height = h)
    (img : Image) (res : Nat) :
    let w := img.width
    let h := img.height
    let s := min w h
    let cropped := img.crop ((w - s) / 2) ((h - s) / 2) ((w + s) / 2) ((h + s) / 2)
    cropped.width = s ∧ cropped.height = s
    ∧ get_target_transformed_img resample img res
        = cropped.resize resample res res Filter.lanczos
    ∧ (get_target_transformed_img resample img res).width = res
    ∧ (get_target_transformed_img resample img res).height = res := by
  intro w h s cropped
  have hsw : s ≤ w := Nat.min_le_left _ _
  have hsh : s ≤ h := Nat.min_le_right _ _
  have hcw : cropped.width = s := crop_box_side w s hsw
  have hch : cropped.height = s := crop_box_side h s hsh
  have heq : get_target_transformed_img resample img res
      = cropped.resize resample res res Filter.lanczos := rfl
  refine ⟨hcw, hch, heq, ?_, ?_⟩
  · rw [heq, Image.resize]
    split
    · next hc => exact hc.1
    · exact (hres Filter.lanczos res res cropped).1
  · rw [heq, Image.resize]
    split
    · next hc => exact hc.2
    · exact (hres Filter.lanczos res res cropped).2

/-- Witness for C2 at a concrete image, resolution and kernel. -/
theorem get_target_transformed_img_center_crop_lanczos_witness :
    let w := onePxImage.width
    let h := onePxImage.height
    let s := min w h
    let cropped := onePxImage.crop ((w - s) / 2) ((h - s) / 2) ((w + s) / 2) ((h + s) / 2)
    cropped.width = s ∧ cropped.height = s
    ∧ get_target_transformed_img fillResample onePxImage 2
        = cropped.resize fillResample 2 2 Filter.lanczos
    ∧ (get_target_transformed_img fillResample onePxImage 2).width = 2
    ∧ (get_target_transformed_img fillResample onePxImage 2).height = 2 :=
  get_target_transformed_img_center_crop_lanczos fillResample
    (fun _ _ _ _ => ⟨rfl, rfl⟩) onePxImage 2

/-- C5: on an already-square input whose side equals the target resolution,
`get_target_transformed_img` returns the input unchanged: the crop box is the
identity box and the same-size resize preserves every pixel. -/
theorem get_target_transformed_img_idempotent
    (resample : Filter → Nat → Nat → Image → Image) (img : Image) (res : Nat)
    (hw : img.width = res) (hh : img.height = res) :
    get_target_transformed_img resample img res = img := by
  have hhw : img.height = img.width := by rw [hh, hw]
  have hmin : min img.width img.height = img.width := by rw [hhw, Nat.min_self]
  have hsub : (img.width - img.width) / 2 = 0 := by omega
  have hsubh : (img.height - img.width) / 2 = 0 := by omega
  have hadd : (img.width + img.width) / 2 = img.width := by omega
  have haddh : (img.height + img.width) / 2 = img.height := by omega
  have hcrop : img.crop 0 0 img.width img.height = img := crop_full img
  show (img.crop ((img.width - min img.width img.height) / 2)
      ((img.height - min img.width img.height) / 2)
      ((img.width + min img.width img.height) / 2)
      ((img.height + min img.width img.height) / 2)).resize resample res res Filter.lanczos
    = img
  rw [hmin, hsub, hsubh, hadd, haddh, hcrop]
  exact resize_self img resample res res Filter.lanczos hw hh

/-- Witness for C5 at a concrete already-square, already-right-size image. -/
theorem get_target_transformed_img_idempotent_witness :
    get_target_transformed_img fillResample onePxImage 1 = onePxImage :=
  get_target_transformed_img_idempotent fillResample onePxImage 1 rfl rfl

/-- C4: when the encoder accepts every frame and both networks render at the
target image's resolution (with a square target), `make_video` emits exactly
one frame per latent vector, each the horizontal concatenation
`[target | original render | blended render]`, appended in trajectory order
to a 10-fps stream, and each frame is exactly three times as wide as the
target image. -/
theorem make_video_three_panel_frames {W : Type} (encode_ok : Image → Bool)
    (G1 blended_model : Network W) (w_plus : List W) (target_uint8 : Image)
    (henc : ∀ f, encode_ok f = true)
    (h1 : G1.img_resolution = target_uint8.width)
    (h2 : blended_model.img_resolution = target_uint8.width) :
    (make_video encode_ok G1 blended_model w_plus target_uint8).2 = Option.none
    ∧ (make_video encode_ok G1 blended_model w_plus target_uint8).1.fps = 10
    ∧ (make_video encode_ok G1 blended_model w_plus target_uint8).1.frames
        = w_plus.map (videoFrame G1 blended_model target_uint8)
    ∧ ∀ f ∈ (make_video encode_ok G1 blended_model w_plus target_uint8).1.frames,
        f.width = 3 * target_uint8.width := by
  have hrun := appendFrames_all_ok encode_ok G1 blended_model target_uint8 henc
    w_plus (get_writer 10)
  refine ⟨?_, ?_, ?_, ?_⟩
  · rw [make_video, hrun]
  · rw [make_video, hrun]; rfl
  · rw [make_video, hrun]; simp [get_writer]
  · intro f hf
    rw [make_video, hrun] at hf
    simp only [get_writer, List.nil_append, List.mem_map] at hf
    obtain ⟨w, _, hfw⟩ := hf
    subst hfw
    simp only [videoFrame, hconcat, render, renderWith]
    omega

/-- Witness for C4 at a concrete trajectory, networks and target. -/
theorem make_video_three_panel_frames_witness :
    (make_video (fun _ => true) unitNetwork unitNetwork [()] onePxImage).2 = Option.none
    ∧ (make_video (fun _ => true) unitNetwork unitNetwork [()] onePxImage).1.fps = 10
    ∧ (make_video (fun _ => true) unitNetwork unitNetwork [()] onePxImage).1.frames
        = [()].map (videoFrame unitNetwork unitNetwork onePxImage)
    ∧ ∀ f ∈ (make_video (fun _ => true) unitNetwork unitNetwork [()] onePxImage).1.frames,
        f.width = 3 * onePxImage.width :=
  make_video_three_panel_frames (fun _ => true) unitNetwork unitNetwork [()] onePxImage
    (fun _ => rfl) rfl rfl

/-- C6 counterexample: a concrete run in which the encoder rejects the very
first frame — an error escapes the loop, and the writer is left with
`closed = false`, so `make_video` does NOT close the stream on every exit
path. -/
theorem make_video_unclosed_on_error :
    (make_video (fun _ => false) unitNetwork unitNetwork [()] onePxImage).2
      = Option.some VideoErr.encodeFailed
    ∧ (make_video (fun _ => false) unitNetwork unitNetwork [()] onePxImage).1.closed = false :=
  ⟨rfl, rfl⟩

/-- C6 (amended): `make_video` closes the video stream exactly on the normal
exit path — the writer ends closed if and only if no error escaped the frame
loop; an error part-way through the trajectory leaves the stream unclosed. -/
theorem make_video_closed_iff_no_error {W : Type} (encode_ok : Image → Bool)
    (G1 blended_model : Network W) (w_plus : List W) (target_uint8 : Image) :
    (make_video encode_ok G1 blended_model w_plus target_uint8).1.closed = true
      ↔ (make_video encode_ok G1 blended_model w_plus target_uint8).2 = Option.none :=
  appendFrames_closed_iff encode_ok G1 blended_model target_uint8 w_plus (get_writer 10) rfl

/-- C7: on every run, the latent archive event of `main` writes
`<outdir>/projected_w.npz` containing exactly one named array, `"w"`, whose
leading dimension is 1 (the trajectory tensor gains an extra leading axis
through `unsqueeze(0)` before saving). -/
theorem main_npz_single_w_leading_one {W : Type} (c : Collaborators W)
    (o : MainOptions) :
    ∃ (shape : List Nat) (rest : List FsEvent),
      main c o = FsEvent.makedirs o.outdir true
        :: FsEvent.writeNpz (o.outdir ++ "/projected_w.npz") (savezW shape) :: rest
      ∧ (savezW shape).length = 1
      ∧ (savezW shape).map Prod.fst = ["w"]
      ∧ ∀ a ∈ savezW shape, a.2.head? = Option.some 1 := by
  refine ⟨_, _, rfl, rfl, rfl, ?_⟩
  intro a ha
  simp only [savezW, unsqueeze0, List.mem_singleton] at ha
  subst ha
  rfl

/-- C8: two runs of `main` that differ only in `--trunc` and `--noise-mode`
produce identical traces — neither option reaches the render calls, which
hard-code `noise_mode="const"` and use no truncation factor. -/
theorem main_ignores_trunc_and_noise_mode {W : Type} (c : Collaborators W)
    (o : MainOptions) (truncation_psi : ℚ) (noise_mode : NoiseMode) :
    main c { o with truncation_psi := truncation_psi, noise_mode := noise_mode } = main c o
    ∧ ∀ (G : Network W) (w : W), render G w = renderWith G w NoiseMode.const :=
  ⟨rfl, fun _ _ => rfl⟩

/-- C10: `main`'s first filesystem action, before any write, is
`os.makedirs(outdir, exist_ok=True)`; pre-creating the output directory does
not change the run (same trace, same resulting filesystem state), and the
whole trace succeeds from any starting state — a pre-existing directory is
not an error. -/
theorem main_makedirs_first_exist_ok {W : Type} (c : Collaborators W)
    (o : MainOptions) (fs : Fs) :
    (main c o).head? = Option.some (FsEvent.makedirs o.outdir true)
    ∧ applyTrace (mkdirP o.outdir fs) (main c o) = applyTrace fs (main c o)
    ∧ ∃ fs', applyTrace fs (main c o) = Except.ok fs' := by
  refine ⟨rfl, ?_, applyTrace_safe (main c o) (main_events_safe c o) fs⟩
  obtain ⟨t, ht⟩ : ∃ t, main c o = FsEvent.makedirs o.outdir true :: t := ⟨_, rfl⟩
  rw [ht]
  simp [applyTrace, applyEvent, mkdirP_idem]

end UseBlendedModel
